import Mathlib

/-!
Shallow embedding of `src/tube_feeder.ino` (Arduino tube-feeder firmware).

Modelling conventions:
* Arduino `float` values (position, speed, calibration constant) are modelled
  as exact rationals `ℚ`; the spec's "within floating-point tolerance" is the
  exact equality of this model.
* `unsigned long`/`long` casts of positive floats truncate toward zero, which
  is `Int.tdiv` of the rational's numerator by its denominator.
* The serial input is modelled as a list of pending newline-terminated lines
  (`List String`, terminators stripped); the serial output is a list of
  `Output` values, one per `Serial.println` response (the multi-line status
  block is a single `Output.statusReport`).
* Arduino `String::trim` / `String::toUpperCase` / `String::toFloat`
  (avr-libc `atof`, plain decimal notation) / `String::toInt` are embedded
  as executable functions on `List Char`; exponent notation of `atof` is not
  modelled (no command in the protocol uses it).
* Real-time delays (`delayMicroseconds`) and raw pin writes have no
  observable effect on the modelled state and are omitted.
-/

namespace TubeFeeder

/-- Step direction: `DIR_FORWARD` (`HIGH`) or `DIR_REVERSE` (`LOW`). -/
inductive Dir where
  | forward
  | reverse
  deriving DecidableEq, Repr

/-- Sign of a direction for position accounting. -/
def dirSign : Dir → ℚ
  | Dir.forward => 1
  | Dir.reverse => -1

/-- One serial response line (constructors follow the sketch's `Serial.println`s;
`statusReport` stands for the whole multi-line `reportStatus` block). -/
inductive Output where
  | feeding (mm : ℚ)
  | okDone
  | okStoppedEarly
  | okStopped
  | okSpeed (v : ℚ)
  | errSpeedRange (mx : ℚ)
  | jogging (d : Dir)
  | errUseJPlusMinus
  | okHome
  | posReport (p : ℚ)
  | statusReport (p v spm : ℚ) (running jog : Bool) (led : ℤ)
  | errBusy
  | errInvalidDistance
  | errLedRange
  | errUnknownCmd
  deriving DecidableEq, Repr

/-- The mutable globals of the sketch (lines 42-50). -/
structure FeederState where
  isRunning : Bool
  stopRequested : Bool
  jogMode : Bool
  jogDirection : Dir
  ledState : ℤ
  currentPositionMm : ℚ
  targetSpeedMmSec : ℚ
  stepDelayUs : ℕ
  deriving DecidableEq, Repr

/-- `stepsPerMm = 17.62` (calibration constant, line 36). -/
def stepsPerMm : ℚ := 1762 / 100

/-- `maxSpeedMmSec = 50.0` (line 37). -/
def maxSpeedMmSec : ℚ := 50

/-- `defaultSpeedMmSec = 10.0` (line 38). -/
def defaultSpeedMmSec : ℚ := 10

/-- `accelMmSec2 = 100.0` (line 39); declared in the sketch but never used. -/
def accelMmSec2 : ℚ := 100

/-- Truncation toward zero of a rational: the C cast `(long)`/`(unsigned long)`
applied to a (nonnegative, in every reachable use) float value. -/
def truncQ (q : ℚ) : ℤ := Int.tdiv q.num q.den

/-- ASCII upper-casing of one character (C `toupper` as used by Arduino
`String::toUpperCase`). -/
def asciiToUpper (c : Char) : Char :=
  if 'a' ≤ c ∧ c ≤ 'z' then Char.ofNat (c.toNat - 32) else c

/-- C `isspace` characters (Arduino `String::trim` strips these). -/
def isSpaceChar (c : Char) : Bool :=
  c = ' ' ∨ c = '\t' ∨ c = '\n' ∨ c = '\x0b' ∨ c = '\x0c' ∨ c = '\r'

/-- Arduino `String::trim`: drop leading and trailing whitespace. -/
def trimChars (cs : List Char) : List Char :=
  ((cs.dropWhile isSpaceChar).reverse.dropWhile isSpaceChar).reverse

/-- `cmd.trim(); cmd.toUpperCase();` applied to a raw input line. -/
def normalizeCmd (cmd : String) : List Char :=
  (trimChars cmd.data).map asciiToUpper

/-- Digit run of `atof`/`atol`: accumulate decimal digits, return the rest. -/
def parseDigits : List Char → ℕ → ℕ × List Char
  | c :: cs, acc =>
      if c.isDigit then parseDigits cs (acc * 10 + (c.toNat - 48)) else (acc, c :: cs)
  | [], acc => (acc, [])

/-- Fractional part after the decimal point in `atof`. -/
def fracVal : List Char → ℚ
  | c :: cs => if c.isDigit then ((c.toNat - 48 : ℕ) + fracVal cs) / 10 else 0
  | [] => 0

/-- Unsigned decimal of `atof`: integer digits, optional point and fraction. -/
def parseUnsignedQ (cs : List Char) : ℚ :=
  let p := parseDigits cs 0
  match p.2 with
  | '.' :: frac => (p.1 : ℚ) + fracVal frac
  | _ => (p.1 : ℚ)

/-- Skip leading whitespace (both `atof` and `atol` do). -/
def skipWs : List Char → List Char
  | c :: cs => if isSpaceChar c then skipWs cs else c :: cs
  | [] => []

/-- Arduino `String::toFloat` (avr-libc `atof` on the character data):
optional sign, digits, optional fraction; anything unparsable yields `0`.
Exponent notation is not modelled (unused by the protocol). -/
def toFloatQ (cs : List Char) : ℚ :=
  match skipWs cs with
  | '-' :: rest => -parseUnsignedQ rest
  | '+' :: rest => parseUnsignedQ rest
  | rest => parseUnsignedQ rest

/-- Arduino `String::toInt` (avr-libc `atol`): optional sign and digits. -/
def toIntZ (cs : List Char) : ℤ :=
  match skipWs cs with
  | '-' :: rest => -((parseDigits rest 0).1 : ℤ)
  | '+' :: rest => ((parseDigits rest 0).1 : ℤ)
  | rest => ((parseDigits rest 0).1 : ℤ)

/-- `doStep(direction)` (lines 288-300): emit one pulse and move
`currentPositionMm` by `±1.0/stepsPerMm`. -/
def doStep (direction : Dir) (s : FeederState) : FeederState :=
  let stepMm := 1 / stepsPerMm
  if direction = Dir.forward then
    { s with currentPositionMm := s.currentPositionMm + stepMm }
  else
    { s with currentPositionMm := s.currentPositionMm - stepMm }

/-- `updateStepDelay()` (lines 302-313): `stepDelayUs` becomes
`(unsigned long)(1000000.0 / (targetSpeedMmSec * stepsPerMm))`,
raised to `100` when below `100`. -/
def updateStepDelay (s : FeederState) : FeederState :=
  let stepsPerSec := s.targetSpeedMmSec * stepsPerMm
  let d := (truncQ (1000000 / stepsPerSec)).toNat
  { s with stepDelayUs := if d < 100 then 100 else d }

/-- `stopMotion()` (lines 282-286). -/
def stopMotion (s : FeederState) : FeederState :=
  { s with stopRequested := true, jogMode := false, isRunning := false }

/-- `startJog(direction)` (lines 269-280), without its serial print. -/
def startJog (direction : Dir) (s : FeederState) : FeederState :=
  { s with jogMode := true, jogDirection := direction,
           isRunning := true, stopRequested := false }

/-- Head-byte test of the in-feed serial scan: `Serial.peek()` is `'S'` or
`'s'` (line 240). An empty pending line stands for a bare terminator, whose
peeked byte is the terminator itself, never `S`. -/
def lineStartsWithS (line : String) : Bool :=
  match line.data with
  | [] => false
  | c :: _ => c = 'S' ∨ c = 's'

/-- The `Serial.available()` check inside the feed loop (lines 237-249):
if the next pending byte is `S`/`s`, consume that whole line
(`readStringUntil`), and set `stopRequested` exactly when it trims and
upper-cases to `STOP`; otherwise leave the serial buffer untouched. -/
def checkSerialStop (s : FeederState) (input : List String) :
    FeederState × List String :=
  match input with
  | [] => (s, [])
  | line :: rest =>
      if lineStartsWithS line then
        if normalizeCmd line = ['S', 'T', 'O', 'P'] then
          ({ s with stopRequested := true }, rest)
        else
          (s, rest)
      else
        (s, line :: rest)

/-- The `while (stepsCompleted < totalSteps && !stopRequested)` loop of
`feedDistance` (lines 232-250), with the remaining step budget as fuel.
Returns the number of steps completed, the final state, and the remaining
serial input. -/
def feedLoop (direction : Dir) : ℕ → FeederState → List String →
    ℕ × FeederState × List String
  | 0, s, input => (0, s, input)
  | fuel + 1, s, input =>
      if s.stopRequested then
        (0, s, input)
      else
        let s1 := doStep direction s
        let p := checkSerialStop s1 input
        let r := feedLoop direction fuel p.1 p.2
        (r.1 + 1, r.2.1, r.2.2)

/-- State on entry of `feedDistance` (lines 218-220). -/
def feedEntry (s : FeederState) : FeederState :=
  { s with isRunning := true, stopRequested := false, jogMode := false }

/-- The loop part of `feedDistance mm direction`: `totalSteps =
(long)(mm * stepsPerMm)` steps of budget starting from the entry state. -/
def feedResult (mm : ℚ) (direction : Dir) (s : FeederState)
    (input : List String) : ℕ × FeederState × List String :=
  feedLoop direction (truncQ (mm * stepsPerMm)).toNat (feedEntry s) input

/-- `feedDistance(mm, direction)` (lines 217-267): run the step loop, then
add `stepsCompleted / stepsPerMm` to the position once more (on top of the
per-step updates already done inside `doStep`), clear `isRunning`, and
report `OK DONE` or `OK STOPPED_EARLY` after the initial `FEEDING` line. -/
def feedDistance (mm : ℚ) (direction : Dir) (s : FeederState)
    (input : List String) : FeederState × List String × List Output :=
  let r := feedResult mm direction s input
  let s1 := r.2.1
  let actualMm := (r.1 : ℚ) / stepsPerMm
  let s2 :=
    if direction = Dir.forward then
      { s1 with currentPositionMm := s1.currentPositionMm + actualMm,
                isRunning := false }
    else
      { s1 with currentPositionMm := s1.currentPositionMm - actualMm,
                isRunning := false }
  (s2, r.2.2,
    [Output.feeding mm,
     if s1.stopRequested then Output.okStoppedEarly else Output.okDone])

/-- `reportStatus()` (lines 315-332) as a single structured output. -/
def reportStatus (s : FeederState) : Output :=
  Output.statusReport s.currentPositionMm s.targetSpeedMmSec stepsPerMm
    s.isRunning s.jogMode s.ledState

/-- `processCommand` (lines 99-215) on the trimmed, upper-cased character
data of the line. Returns the new state, the remaining pending serial input
(feeds may consume lines), and the responses printed. -/
def processLineChars (cs : List Char) (s : FeederState)
    (pending : List String) : FeederState × List String × List Output :=
  match cs with
  | [] => (s, pending, [])
  | firstChar :: rest =>
      if firstChar :: rest = ['S', 'T', 'O', 'P'] then
        (stopMotion s, pending, [Output.okStopped])
      else if s.isRunning ∧ firstChar ≠ '?' then
        (s, pending, [Output.errBusy])
      else if firstChar = 'F' then
        let mm := toFloatQ rest
        if 0 < mm then feedDistance mm Dir.forward s pending
        else (s, pending, [Output.errInvalidDistance])
      else if firstChar = 'R' then
        let mm := toFloatQ rest
        if 0 < mm then feedDistance mm Dir.reverse s pending
        else (s, pending, [Output.errInvalidDistance])
      else if firstChar = 'S' then
        let speed := toFloatQ rest
        if 0 < speed ∧ speed ≤ maxSpeedMmSec then
          let s2 := updateStepDelay { s with targetSpeedMmSec := speed }
          (s2, pending, [Output.okSpeed s2.targetSpeedMmSec])
        else
          (s, pending, [Output.errSpeedRange maxSpeedMmSec])
      else if firstChar = 'J' then
        match rest with
        | [] => (s, pending, [])
        | d :: _ =>
            if d = '+' then
              (startJog Dir.forward s, pending, [Output.jogging Dir.forward])
            else if d = '-' then
              (startJog Dir.reverse s, pending, [Output.jogging Dir.reverse])
            else
              (s, pending, [Output.errUseJPlusMinus])
      else if firstChar = 'H' then
        if firstChar :: rest = ['H', 'O', 'M', 'E'] then
          ({ s with currentPositionMm := 0 }, pending, [Output.okHome])
        else (s, pending, [])
      else if firstChar = 'P' then
        if firstChar :: rest = ['P', 'O', 'S'] then
          (s, pending, [Output.posReport s.currentPositionMm])
        else (s, pending, [])
      else if firstChar = '?' then
        (s, pending, [reportStatus s])
      else if firstChar = 'L' then
        match rest with
        | [] => (s, pending, [])
        | _ =>
            let st := toIntZ rest
            if 0 ≤ st ∧ st ≤ 3 then
              ({ s with ledState := st }, pending, [])
            else
              (s, pending, [Output.errLedRange])
      else
        (s, pending, [Output.errUnknownCmd])

/-- `processCommand(cmd)` on a raw line: trim, upper-case, dispatch. -/
def processCommand (cmd : String) (s : FeederState)
    (pending : List String) : FeederState × List String × List Output :=
  processLineChars (normalizeCmd cmd) s pending

/-- The jog branch of `loop()` (lines 92-96): one scheduling tick issues one
step in the jog direction when jogging and no stop is requested. -/
def jogTick (s : FeederState) : FeederState :=
  if s.jogMode ∧ ¬s.stopRequested then doStep s.jogDirection s else s

/-- State after `setup()` (lines 41-76): globals at their initializers,
then `updateStepDelay()`. -/
def bootState : FeederState :=
  updateStepDelay
    { isRunning := false, stopRequested := false, jogMode := false,
      jogDirection := Dir.forward, ledState := 0, currentPositionMm := 0,
      targetSpeedMmSec := 10, stepDelayUs := 1000 }

/-! ### Helper lemmas about the embedded operations -/

theorem truncQ_eq_floor (q : ℚ) (h : 0 ≤ q) : truncQ q = ⌊q⌋ := by
  rw [truncQ, Rat.floor_def]
  exact Int.tdiv_eq_ediv (Rat.num_nonneg.mpr h) (Int.natCast_nonneg _)

theorem doStep_eq (d : Dir) (s : FeederState) :
    doStep d s =
      { s with currentPositionMm := s.currentPositionMm + dirSign d / stepsPerMm } := by
  cases d with
  | forward => simp [doStep, dirSign]
  | reverse =>
      simp only [doStep, dirSign]
      rw [if_neg (by simp)]
      have : s.currentPositionMm - 1 / stepsPerMm =
          s.currentPositionMm + -1 / stepsPerMm := by ring
      rw [this]

theorem checkSerialStop_fst (s : FeederState) (input : List String) :
    (checkSerialStop s input).1 = s ∨
      (checkSerialStop s input).1 = { s with stopRequested := true } := by
  match input with
  | [] => left; rfl
  | line :: rest =>
      simp only [checkSerialStop]
      split
      · split
        · right; rfl
        · left; rfl
      · left; rfl

theorem checkSerialStop_currentPositionMm (s : FeederState) (input : List String) :
    (checkSerialStop s input).1.currentPositionMm = s.currentPositionMm := by
  rcases checkSerialStop_fst s input with h | h <;> rw [h]

theorem checkSerialStop_jogMode (s : FeederState) (input : List String) :
    (checkSerialStop s input).1.jogMode = s.jogMode := by
  rcases checkSerialStop_fst s input with h | h <;> rw [h]

theorem checkSerialStop_nil (s : FeederState) : checkSerialStop s [] = (s, []) := rfl

theorem checkSerialStop_nil_stop (s : FeederState) :
    (checkSerialStop s []).1.stopRequested = s.stopRequested := rfl

theorem checkSerialStop_notS (s : FeederState) (line : String) (rest : List String)
    (h : lineStartsWithS line = false) :
    checkSerialStop s (line :: rest) = (s, line :: rest) := by
  simp [checkSerialStop, h]

/-- Position accounting of the feed loop alone: exactly one `±1/stepsPerMm`
per completed step. -/
theorem feedLoop_pos (d : Dir) (fuel : ℕ) (s : FeederState) (input : List String) :
    (feedLoop d fuel s input).2.1.currentPositionMm =
      s.currentPositionMm + dirSign d * (feedLoop d fuel s input).1 / stepsPerMm := by
  induction fuel generalizing s input with
  | zero => simp [feedLoop]
  | succ n ih =>
      by_cases hstop : s.stopRequested
      · simp [feedLoop, hstop]
      · simp only [feedLoop, hstop, if_false, Bool.false_eq_true]
        rw [ih]
        rw [checkSerialStop_currentPositionMm, doStep_eq]
        push_cast
        ring

/-- The feed loop never touches `jogMode`. -/
theorem feedLoop_jogMode (d : Dir) (fuel : ℕ) (s : FeederState) (input : List String) :
    (feedLoop d fuel s input).2.1.jogMode = s.jogMode := by
  induction fuel generalizing s input with
  | zero => simp [feedLoop]
  | succ n ih =>
      by_cases hstop : s.stopRequested
      · simp [feedLoop, hstop]
      · simp only [feedLoop, hstop, if_false, Bool.false_eq_true]
        rw [ih, checkSerialStop_jogMode, doStep_eq]

/-- With no pending serial input the feed loop runs its whole step budget,
never sets `stopRequested`, and leaves the (empty) input empty. -/
theorem feedLoop_nil (d : Dir) (fuel : ℕ) (s : FeederState)
    (h : s.stopRequested = false) :
    (feedLoop d fuel s []).1 = fuel ∧
      (feedLoop d fuel s []).2.1.stopRequested = false ∧
      (feedLoop d fuel s []).2.2 = [] := by
  induction fuel generalizing s with
  | zero => simp [feedLoop, h]
  | succ n ih =>
      have hstep : (doStep d s).stopRequested = false := by rw [doStep_eq]; exact h
      simp only [feedLoop, h, if_false, Bool.false_eq_true, checkSerialStop_nil]
      rcases ih (doStep d s) hstep with ⟨h1, h2, h3⟩
      exact ⟨by rw [h1], h2, h3⟩

/-- A pending line that does not start with `S`/`s` is never consumed by the
feed loop: the whole buffer survives the feed untouched. -/
theorem feedLoop_notS (d : Dir) (fuel : ℕ) (s : FeederState) (line : String)
    (rest : List String) (h : lineStartsWithS line = false) :
    (feedLoop d fuel s (line :: rest)).2.2 = line :: rest := by
  induction fuel generalizing s with
  | zero => simp [feedLoop]
  | succ n ih =>
      by_cases hstop : s.stopRequested
      · simp [feedLoop, hstop]
      · simp only [feedLoop, hstop, if_false, Bool.false_eq_true,
          checkSerialStop_notS _ _ _ h]
        exact ih (doStep d s)

/-- A pending line that does not start with `S`/`s` also never sets
`stopRequested`: the feed loop's serial scan leaves the state alone. -/
theorem feedLoop_notS_stop (d : Dir) (fuel : ℕ) (s : FeederState) (line : String)
    (rest : List String) (h : lineStartsWithS line = false) :
    (feedLoop d fuel s (line :: rest)).2.1.stopRequested = s.stopRequested := by
  induction fuel generalizing s with
  | zero => simp [feedLoop]
  | succ n ih =>
      by_cases hstop : s.stopRequested
      · simp [feedLoop, hstop]
      · simp only [feedLoop, hstop, if_false, Bool.false_eq_true,
          checkSerialStop_notS _ _ _ h]
        rw [ih (doStep d s)]
        rw [doStep_eq]
        simpa using hstop

/-- Net position change of `feedDistance`: twice the stepped distance, the
per-step update inside `doStep` plus the post-loop `stepsCompleted /
stepsPerMm` correction. -/
theorem feedDistance_pos (mm : ℚ) (d : Dir) (s : FeederState) (input : List String) :
    (feedDistance mm d s input).1.currentPositionMm =
      s.currentPositionMm +
        dirSign d * (2 * ((feedResult mm d s input).1 : ℚ)) / stepsPerMm := by
  have hentry : (feedEntry s).currentPositionMm = s.currentPositionMm := rfl
  cases d with
  | forward =>
      have hfd : (feedDistance mm Dir.forward s input).1.currentPositionMm =
          (feedResult mm Dir.forward s input).2.1.currentPositionMm +
            ((feedResult mm Dir.forward s input).1 : ℚ) / stepsPerMm := by
        simp [feedDistance]
      rw [hfd, feedResult, feedLoop_pos, hentry, dirSign]
      ring
  | reverse =>
      have hfd : (feedDistance mm Dir.reverse s input).1.currentPositionMm =
          (feedResult mm Dir.reverse s input).2.1.currentPositionMm -
            ((feedResult mm Dir.reverse s input).1 : ℚ) / stepsPerMm := by
        simp [feedDistance]
      rw [hfd, feedResult, feedLoop_pos, hentry, dirSign]
      ring

theorem feedDistance_isRunning (mm : ℚ) (d : Dir) (s : FeederState)
    (input : List String) : (feedDistance mm d s input).1.isRunning = false := by
  cases d <;> simp [feedDistance]

theorem feedDistance_outputs (mm : ℚ) (d : Dir) (s : FeederState)
    (input : List String) :
    (feedDistance mm d s input).2.2 = [Output.feeding mm, Output.okDone] ∨
      (feedDistance mm d s input).2.2 =
        [Output.feeding mm, Output.okStoppedEarly] := by
  simp only [feedDistance]
  split
  · right
    cases d <;> rfl
  · left
    cases d <;> rfl

/-- Uninterrupted feed: with no pending input, all
`(long)(mm * stepsPerMm)` steps run, the position moves by twice the stepped
distance, the feed reports `OK DONE`, and the controller returns to idle. -/
theorem feedDistance_nil (mm : ℚ) (d : Dir) (s : FeederState) :
    (feedDistance mm d s []).1.currentPositionMm =
        s.currentPositionMm +
          dirSign d * (2 * ((truncQ (mm * stepsPerMm)).toNat : ℚ)) / stepsPerMm ∧
      (feedDistance mm d s []).1.isRunning = false ∧
      (feedDistance mm d s []).2.1 = [] ∧
      (feedDistance mm d s []).2.2 = [Output.feeding mm, Output.okDone] := by
  have hentry : (feedEntry s).stopRequested = false := rfl
  rcases feedLoop_nil d (truncQ (mm * stepsPerMm)).toNat (feedEntry s) hentry with
    ⟨hsteps, hstop, hinp⟩
  refine ⟨?_, feedDistance_isRunning mm d s [], ?_, ?_⟩
  · rw [feedDistance_pos, feedResult, hsteps]
  · cases d <;> simp only [feedDistance, feedResult] <;> exact hinp
  · cases d <;> simp only [feedDistance, feedResult, hstop] <;> rfl

theorem processCommand_eq (cmd : String) (cs : List Char) (s : FeederState)
    (pending : List String) (h : normalizeCmd cmd = cs) :
    processCommand cmd s pending = processLineChars cs s pending := by
  rw [processCommand, h]

theorem processLineChars_F (ds : List Char) (s : FeederState)
    (pending : List String) (hrun : s.isRunning = false)
    (hmm : 0 < toFloatQ ds) :
    processLineChars ('F' :: ds) s pending =
      feedDistance (toFloatQ ds) Dir.forward s pending := by
  simp [processLineChars, hrun, hmm]

theorem processLineChars_R (ds : List Char) (s : FeederState)
    (pending : List String) (hrun : s.isRunning = false)
    (hmm : 0 < toFloatQ ds) :
    processLineChars ('R' :: ds) s pending =
      feedDistance (toFloatQ ds) Dir.reverse s pending := by
  simp [processLineChars, hrun, hmm]

theorem processLineChars_stop (s : FeederState) (pending : List String) :
    processLineChars ['S', 'T', 'O', 'P'] s pending =
      (stopMotion s, pending, [Output.okStopped]) := by
  simp [processLineChars]

theorem processLineChars_status (ds : List Char) (s : FeederState)
    (pending : List String) :
    processLineChars ('?' :: ds) s pending = (s, pending, [reportStatus s]) := by
  simp [processLineChars]

theorem processLineChars_busy (fc : Char) (ds : List Char) (s : FeederState)
    (pending : List String) (hrun : s.isRunning = true) (hq : fc ≠ '?')
    (hstop : fc :: ds ≠ ['S', 'T', 'O', 'P']) :
    processLineChars (fc :: ds) s pending = (s, pending, [Output.errBusy]) := by
  simp [processLineChars, hrun, hq, hstop]

theorem processLineChars_S (ds : List Char) (s : FeederState)
    (pending : List String) (hrun : s.isRunning = false)
    (hnotstop : ds ≠ ['T', 'O', 'P']) :
    processLineChars ('S' :: ds) s pending =
      if 0 < toFloatQ ds ∧ toFloatQ ds ≤ maxSpeedMmSec then
        (updateStepDelay { s with targetSpeedMmSec := toFloatQ ds }, pending,
          [Output.okSpeed (toFloatQ ds)])
      else (s, pending, [Output.errSpeedRange maxSpeedMmSec]) := by
  have hstop : ('S' :: ds) ≠ ['S', 'T', 'O', 'P'] := by
    intro h
    injection h with h1 h2
    exact hnotstop h2
  simp [processLineChars, hrun, hstop]
  rfl

/-! ### Claim theorems -/

/-- Claim C1 (code_bug evidence): the uninterrupted command `F50` from the
boot state leaves `Position = 100 mm`, not the `round(50 * 17.62) / 17.62
= 881 / stepsPerMm = 50 mm` the claim states: each of the 881 steps already
adds `1/stepsPerMm` inside `doStep`, and `feedDistance` then adds
`stepsCompleted/stepsPerMm` once more after the loop, doubling the change. -/
theorem C1_feed_position_doubled_eval :
    (processCommand "F50" bootState []).1.currentPositionMm = 100 ∧
      (processCommand "F50" bootState []).2.2 =
        [Output.feeding 50, Output.okDone] ∧
      (100 : ℚ) ≠ 881 / stepsPerMm := by
  have hmm : (0 : ℚ) < toFloatQ ['5', '0'] := by decide
  have hv : toFloatQ ['5', '0'] = 50 := by decide
  have e1 : processCommand "F50" bootState [] =
      feedDistance 50 Dir.forward bootState [] := by
    rw [processCommand_eq "F50" (['F', '5', '0']) bootState [] (by decide),
        processLineChars_F ['5', '0'] bootState [] rfl hmm, hv]
  rcases feedDistance_nil 50 Dir.forward bootState with ⟨p1, _, _, o1⟩
  have hT : ((truncQ (50 * stepsPerMm)).toNat : ℚ) = 881 := by
    norm_num [truncQ, stepsPerMm]
    decide
  refine ⟨?_, by rw [e1, o1], by norm_num [stepsPerMm]⟩
  rw [e1, p1, hT]
  have hb : bootState.currentPositionMm = 0 := rfl
  rw [hb]
  simp [dirSign]
  norm_num [stepsPerMm]

/-- Claim C2 (code_bug evidence): `STOP` is indeed always accepted — from the
command loop it yields `OK STOPPED` and the idle flags, and a `STOP` line
arriving during the blocking feed `F1` stops it after 1 of its 17 steps with
`OK STOPPED_EARLY` and `isRunning`/`jogMode` false — but the final Position
is `2 * (1/stepsPerMm) = 100/881 mm`, not the `1/stepsPerMm` of the single
step actually completed, because the feed double-counts position. -/
theorem C2_stop_semantics_eval :
    (processCommand "STOP" bootState []).1.isRunning = false ∧
      (processCommand "STOP" bootState []).1.jogMode = false ∧
      (processCommand "STOP" bootState []).2.2 = [Output.okStopped] ∧
      (processCommand "F1" bootState ["STOP"]).2.2 =
        [Output.feeding 1, Output.okStoppedEarly] ∧
      (processCommand "F1" bootState ["STOP"]).1.isRunning = false ∧
      (processCommand "F1" bootState ["STOP"]).1.jogMode = false ∧
      (processCommand "F1" bootState ["STOP"]).2.1 = [] ∧
      (feedResult 1 Dir.forward bootState ["STOP"]).1 = 1 ∧
      (truncQ (1 * stepsPerMm)).toNat = 17 ∧
      (processCommand "F1" bootState ["STOP"]).1.currentPositionMm = 100 / 881 ∧
      (100 / 881 : ℚ) ≠ 1 / stepsPerMm := by
  have hv : toFloatQ ['1'] = 1 := by decide
  have e1 : processCommand "F1" bootState ["STOP"] =
      feedDistance 1 Dir.forward bootState ["STOP"] := by
    rw [processCommand_eq "F1" (['F', '1']) bootState ["STOP"] (by decide),
        processLineChars_F ['1'] bootState ["STOP"] rfl (by decide), hv]
  have hfuelZ : truncQ (1 * stepsPerMm) = 17 := by
    norm_num [truncQ, stepsPerMm]
    decide
  have hfuel : (truncQ (1 * stepsPerMm)).toNat = 17 := by rw [hfuelZ]; rfl
  have e2 : feedResult 1 Dir.forward bootState ["STOP"] =
      feedLoop Dir.forward 17 (feedEntry bootState) ["STOP"] := by
    simp only [feedResult]
    rw [hfuel]
  have hsteps : (feedResult 1 Dir.forward bootState ["STOP"]).1 = 1 := by
    rw [e2]
    decide
  have hstopflag :
      (feedResult 1 Dir.forward bootState ["STOP"]).2.1.stopRequested = true := by
    rw [e2]
    decide
  have hpend : (feedResult 1 Dir.forward bootState ["STOP"]).2.2 = [] := by
    rw [e2]
    decide
  have houtputs : (feedDistance 1 Dir.forward bootState ["STOP"]).2.2 =
      [Output.feeding 1, Output.okStoppedEarly] := by
    simp only [feedDistance, hstopflag]
    rfl
  have hpendout : (feedDistance 1 Dir.forward bootState ["STOP"]).2.1 = [] := by
    simp only [feedDistance]
    exact hpend
  have hjog : (feedDistance 1 Dir.forward bootState ["STOP"]).1.jogMode =
      (feedResult 1 Dir.forward bootState ["STOP"]).2.1.jogMode := rfl
  refine ⟨rfl, rfl, by decide, by rw [e1]; exact houtputs,
    by rw [e1]; exact feedDistance_isRunning 1 Dir.forward bootState ["STOP"],
    ?_, by rw [e1]; exact hpendout, hsteps, hfuel, ?_, ?_⟩
  · rw [e1, hjog, e2, feedLoop_jogMode]
    rfl
  · rw [e1, feedDistance_pos, hsteps]
    have hb : bootState.currentPositionMm = 0 := rfl
    rw [hb]
    simp only [dirSign]
    norm_num [stepsPerMm]
  · norm_num [stepsPerMm]

/-- Claim C3 counterexample: a motion command submitted while a blocking
feed is active is never answered `ERR BUSY`. The feed `F1` with the line
`F2` pending leaves `F2` unread in the buffer (the in-feed scan only
consumes `S`/`s`-leading lines) and emits only its own `FEEDING`/`OK DONE`
responses; when `F2` is then processed after the feed, `isRunning` is
already false, so it is executed — moving Position — rather than rejected. -/
theorem C3_counterexample_feed_queues_motion :
    (processCommand "F1" bootState ["F2"]).2.1 = ["F2"] ∧
      (processCommand "F1" bootState ["F2"]).2.2 =
        [Output.feeding 1, Output.okDone] ∧
      (processCommand "F2" (processCommand "F1" bootState ["F2"]).1 []).2.2 =
        [Output.feeding 2, Output.okDone] ∧
      (processCommand "F2"
            (processCommand "F1" bootState ["F2"]).1 []).1.currentPositionMm ≠
        (processCommand "F1" bootState ["F2"]).1.currentPositionMm := by
  have hv1 : toFloatQ ['1'] = 1 := by decide
  have hline : lineStartsWithS "F2" = false := by decide
  have e1 : processCommand "F1" bootState ["F2"] =
      feedDistance 1 Dir.forward bootState ["F2"] := by
    rw [processCommand_eq "F1" (['F', '1']) bootState ["F2"] (by decide),
        processLineChars_F ['1'] bootState ["F2"] rfl (by decide), hv1]
  have hpend : (feedDistance 1 Dir.forward bootState ["F2"]).2.1 = ["F2"] := by
    have hfd : (feedDistance 1 Dir.forward bootState ["F2"]).2.1 =
        (feedResult 1 Dir.forward bootState ["F2"]).2.2 := rfl
    rw [hfd, feedResult]
    exact feedLoop_notS Dir.forward _ (feedEntry bootState) "F2" [] hline
  have hstopflag :
      (feedResult 1 Dir.forward bootState ["F2"]).2.1.stopRequested = false := by
    simp only [feedResult]
    rw [feedLoop_notS_stop Dir.forward _ (feedEntry bootState) "F2" [] hline]
    rfl
  have houtputs : (feedDistance 1 Dir.forward bootState ["F2"]).2.2 =
      [Output.feeding 1, Output.okDone] := by
    simp only [feedDistance, hstopflag]
    rfl
  have hrun1 : (feedDistance 1 Dir.forward bootState ["F2"]).1.isRunning = false :=
    feedDistance_isRunning 1 Dir.forward bootState ["F2"]
  have hv2 : toFloatQ ['2'] = 2 := by decide
  have e2 : processCommand "F2" (feedDistance 1 Dir.forward bootState ["F2"]).1 [] =
      feedDistance 2 Dir.forward (feedDistance 1 Dir.forward bootState ["F2"]).1
        [] := by
    rw [processCommand_eq "F2" (['F', '2']) _ [] (by decide),
        processLineChars_F ['2'] _ [] hrun1 (by decide), hv2]
  rcases feedDistance_nil 2 Dir.forward
      (feedDistance 1 Dir.forward bootState ["F2"]).1 with ⟨p2, _, _, o2⟩
  have hT2 : ((truncQ (2 * stepsPerMm)).toNat : ℚ) = 35 := by
    norm_num [truncQ, stepsPerMm]
    decide
  refine ⟨by rw [e1]; exact hpend, by rw [e1]; exact houtputs,
    by rw [e1, e2, o2], ?_⟩
  rw [e1, e2, p2, hT2]
  simp only [dirSign]
  have hgt : (0 : ℚ) < 1 * (2 * 35) / stepsPerMm := by norm_num [stepsPerMm]
  exact (lt_add_of_pos_right _ hgt).ne'

/-- Claim C3 as amended: a motion command processed by the command loop
while `isRunning` is true — which only happens while jogging, since a feed
blocks the loop — is rejected with `ERR BUSY` and changes neither state nor
pending input, and `STOP` and `?` are never rejected; a motion command line
submitted during a blocking feed is not busy-rejected: it receives no
response during the feed (the feed emits only its own `FEEDING` and
`OK DONE`/`OK STOPPED_EARLY` lines) and stays in the serial buffer, to be
processed only after the feed ends. -/
theorem C3_busy_rejection_amended :
    (∀ (cmd : String) (s : FeederState) (pending : List String) (fc : Char)
        (ds : List Char), s.isRunning = true → normalizeCmd cmd = fc :: ds →
        fc = 'F' ∨ fc = 'R' ∨ fc = 'J' →
        processCommand cmd s pending = (s, pending, [Output.errBusy])) ∧
      (∀ (cmd : String) (s : FeederState) (pending : List String),
        normalizeCmd cmd = ['S', 'T', 'O', 'P'] →
        processCommand cmd s pending =
          (stopMotion s, pending, [Output.okStopped])) ∧
      (∀ (cmd : String) (s : FeederState) (pending : List String)
        (ds : List Char), normalizeCmd cmd = '?' :: ds →
        processCommand cmd s pending = (s, pending, [reportStatus s])) ∧
      (∀ (line : String) (rest : List String) (mm : ℚ) (d : Dir)
        (s : FeederState), lineStartsWithS line = false →
        (feedDistance mm d s (line :: rest)).2.1 = line :: rest ∧
        ((feedDistance mm d s (line :: rest)).2.2 =
            [Output.feeding mm, Output.okDone] ∨
          (feedDistance mm d s (line :: rest)).2.2 =
            [Output.feeding mm, Output.okStoppedEarly])) := by
  refine ⟨?_, ?_, ?_, ?_⟩
  · intro cmd s pending fc ds hrun hnorm hfc
    rw [processCommand_eq _ _ _ _ hnorm]
    rcases hfc with rfl | rfl | rfl <;>
      exact processLineChars_busy _ _ _ _ hrun (by decide) (by simp)
  · intro cmd s pending hnorm
    rw [processCommand_eq _ _ _ _ hnorm]
    exact processLineChars_stop s pending
  · intro cmd s pending ds hnorm
    rw [processCommand_eq _ _ _ _ hnorm]
    exact processLineChars_status ds s pending
  · intro line rest mm d s hline
    refine ⟨?_, feedDistance_outputs mm d s (line :: rest)⟩
    have hfd : (feedDistance mm d s (line :: rest)).2.1 =
        (feedResult mm d s (line :: rest)).2.2 := by
      cases d <;> simp [feedDistance]
    rw [hfd, feedResult]
    exact feedLoop_notS d _ (feedEntry s) line rest hline

/-- Concrete instances of the amended Claim C3: while jogging, `F10` is
busy-rejected and `STOP` and `?` still succeed; a pending `F10` line
survives a blocking feed untouched. -/
theorem C3_busy_rejection_amended_witness :
    processCommand "F10" { bootState with isRunning := true } [] =
        ({ bootState with isRunning := true }, [], [Output.errBusy]) ∧
      processCommand "STOP" { bootState with isRunning := true } [] =
        (stopMotion { bootState with isRunning := true }, [],
          [Output.okStopped]) ∧
      processCommand "?" { bootState with isRunning := true } [] =
        ({ bootState with isRunning := true }, [],
          [reportStatus { bootState with isRunning := true }]) ∧
      (feedDistance 1 Dir.forward bootState ["F10"]).2.1 = ["F10"] :=
  ⟨C3_busy_rejection_amended.1 "F10" _ [] 'F' ['1', '0'] rfl (by decide)
      (Or.inl rfl),
   C3_busy_rejection_amended.2.1 "STOP" _ [] (by decide),
   C3_busy_rejection_amended.2.2.1 "?" _ [] [] (by decide),
   (C3_busy_rejection_amended.2.2.2 "F10" [] 1 Dir.forward bootState
      (by decide)).1⟩

/-- Claim C4 counterexample: the line `HELLO` is not one of the defined
commands, yet the interpreter answers nothing at all — it falls into the
`case 'H'` branch, fails the `cmd == "HOME"` test, and returns without any
response, instead of the claimed `ERR UNKNOWN_CMD`. -/
theorem C4_counterexample_hello_silent :
    (processCommand "HELLO" bootState []).2.2 = [] ∧
      (processCommand "HELLO" bootState []).2.2 ≠ [Output.errUnknownCmd] ∧
      (processCommand "HELLO" bootState []).1 = bootState ∧
      (processCommand "HELLO" bootState []).2.1 = [] :=
  ⟨by decide, by decide, rfl, rfl⟩

/-- Claim C4 as amended: `ERR UNKNOWN_CMD` is the response exactly for idle
lines whose trimmed upper-cased first character is outside
`F R S J H P ? L`; malformed lines starting with one of those characters
get that command's specific error or no response at all. -/
theorem C4_unknown_first_char (cmd : String) (s : FeederState)
    (pending : List String) (fc : Char) (ds : List Char)
    (hrun : s.isRunning = false) (hnorm : normalizeCmd cmd = fc :: ds)
    (hfc : fc ∉ (['F', 'R', 'S', 'J', 'H', 'P', '?', 'L'] : List Char)) :
    processCommand cmd s pending = (s, pending, [Output.errUnknownCmd]) := by
  rw [processCommand_eq _ _ _ _ hnorm]
  have hF : fc ≠ 'F' := by intro h; exact hfc (by simp [h])
  have hR : fc ≠ 'R' := by intro h; exact hfc (by simp [h])
  have hS : fc ≠ 'S' := by intro h; exact hfc (by simp [h])
  have hJ : fc ≠ 'J' := by intro h; exact hfc (by simp [h])
  have hH : fc ≠ 'H' := by intro h; exact hfc (by simp [h])
  have hP : fc ≠ 'P' := by intro h; exact hfc (by simp [h])
  have hQ : fc ≠ '?' := by intro h; exact hfc (by simp [h])
  have hL : fc ≠ 'L' := by intro h; exact hfc (by simp [h])
  have hstop : fc :: ds ≠ ['S', 'T', 'O', 'P'] := by
    intro h
    injection h with h1 _
    exact hS h1
  simp [processLineChars, hrun, hstop, hF, hR, hS, hJ, hH, hP, hQ, hL]

/-- Concrete instance of the amended Claim C4: `XYZ` gets `ERR UNKNOWN_CMD`. -/
theorem C4_unknown_first_char_witness :
    processCommand "XYZ" bootState [] =
      (bootState, [], [Output.errUnknownCmd]) :=
  C4_unknown_first_char "XYZ" bootState [] 'X' ['Y', 'Z'] rfl (by decide)
    (by decide)

/-- Claim C5: an uninterrupted `F<mm>` immediately followed by an
uninterrupted `R<mm>` with the same `mm > 0` (and untouched speed) returns
`Position` exactly to its starting value, both moves reporting `OK DONE`.
The per-feed doubling of the position change cancels between the two
opposite directions. -/
theorem C5_round_trip (cmdF cmdR : String) (ds : List Char) (mm : ℚ)
    (s : FeederState) (hrun : s.isRunning = false)
    (hF : normalizeCmd cmdF = 'F' :: ds) (hR : normalizeCmd cmdR = 'R' :: ds)
    (hv : toFloatQ ds = mm) (hmm : 0 < mm) :
    (processCommand cmdR (processCommand cmdF s []).1 []).1.currentPositionMm =
        s.currentPositionMm ∧
      (processCommand cmdF s []).2.2 = [Output.feeding mm, Output.okDone] ∧
      (processCommand cmdR (processCommand cmdF s []).1 []).2.2 =
        [Output.feeding mm, Output.okDone] := by
  have hmm2 : 0 < toFloatQ ds := by rw [hv]; exact hmm
  have e1 : processCommand cmdF s [] = feedDistance mm Dir.forward s [] := by
    rw [processCommand_eq _ _ _ _ hF, processLineChars_F ds s [] hrun hmm2, hv]
  rcases feedDistance_nil mm Dir.forward s with ⟨p1, r1, _, o1⟩
  have e2 : processCommand cmdR (feedDistance mm Dir.forward s []).1 [] =
      feedDistance mm Dir.reverse (feedDistance mm Dir.forward s []).1 [] := by
    rw [processCommand_eq _ _ _ _ hR, processLineChars_R ds _ [] r1 hmm2, hv]
  rcases feedDistance_nil mm Dir.reverse (feedDistance mm Dir.forward s []).1
    with ⟨p2, _, _, o2⟩
  refine ⟨?_, ?_, ?_⟩
  · rw [e1, e2, p2, p1]
    simp only [dirSign]
    ring
  · rw [e1, o1]
  · rw [e1, e2, o2]

/-- Concrete instance of Claim C5: `F100` then `R100` from boot returns
`Position` to 0. -/
theorem C5_round_trip_witness :
    (0 : ℚ) < 100 ∧
      (processCommand "R100" (processCommand "F100" bootState []).1
          []).1.currentPositionMm = bootState.currentPositionMm :=
  ⟨by norm_num,
    (C5_round_trip "F100" "R100" ['1', '0', '0'] 100 bootState rfl (by decide)
        (by decide) (by decide) (by norm_num)).1⟩

/-- Claim C6: `S<v>` with `0 < v ≤ maxSpeedMmSec` stores exactly `v`,
recomputes the step delay, and answers `OK SPEED=<v>`, after which the
status block reports speed `v` exactly as set; `v ≤ 0` (so also `S0` and
negative values, and unparsable suffixes, which `toFloat` maps to `0`) or
`v > maxSpeedMmSec` answers `ERR SPEED_RANGE 0-<max>` and leaves the state
unchanged. -/
theorem C6_speed_command (cmd : String) (s : FeederState)
    (pending : List String) (ds : List Char) (v : ℚ)
    (hrun : s.isRunning = false) (hnorm : normalizeCmd cmd = 'S' :: ds)
    (hnotstop : ds ≠ ['T', 'O', 'P']) (hv : toFloatQ ds = v) :
    (0 < v → v ≤ maxSpeedMmSec →
      processCommand cmd s pending =
        (updateStepDelay { s with targetSpeedMmSec := v }, pending,
          [Output.okSpeed v]) ∧
      (updateStepDelay { s with targetSpeedMmSec := v }).targetSpeedMmSec = v ∧
      reportStatus (updateStepDelay { s with targetSpeedMmSec := v }) =
        Output.statusReport s.currentPositionMm v stepsPerMm s.isRunning
          s.jogMode s.ledState) ∧
    (v ≤ 0 ∨ maxSpeedMmSec < v →
      processCommand cmd s pending =
        (s, pending, [Output.errSpeedRange maxSpeedMmSec])) := by
  rw [processCommand_eq _ _ _ _ hnorm,
    processLineChars_S ds s pending hrun hnotstop, hv]
  constructor
  · intro h1 h2
    rw [if_pos ⟨h1, h2⟩]
    exact ⟨rfl, rfl, rfl⟩
  · intro hbad
    rw [if_neg]
    intro hgood
    rcases hbad with hb | hb
    · exact hb.not_lt hgood.1
    · exact hb.not_le hgood.2

/-- Concrete instances of Claim C6: `S20` is accepted and stored exactly,
`S0` and `S-5` are rejected with the range error. -/
theorem C6_speed_command_witness :
    ((0 : ℚ) < 20 ∧ (20 : ℚ) ≤ maxSpeedMmSec ∧
      processCommand "S20" bootState [] =
        (updateStepDelay { bootState with targetSpeedMmSec := 20 }, [],
          [Output.okSpeed 20]) ∧
      (updateStepDelay
          { bootState with targetSpeedMmSec := 20 }).targetSpeedMmSec = 20) ∧
    processCommand "S0" bootState [] =
        (bootState, [], [Output.errSpeedRange maxSpeedMmSec]) ∧
    processCommand "S-5" bootState [] =
      (bootState, [], [Output.errSpeedRange maxSpeedMmSec]) := by
  have h20 := C6_speed_command "S20" bootState [] ['2', '0'] 20 rfl (by decide)
    (by decide) (by decide)
  have h0 := C6_speed_command "S0" bootState [] ['0'] 0 rfl (by decide)
    (by decide) (by decide)
  have hm5 := C6_speed_command "S-5" bootState [] ['-', '5'] (-5) rfl
    (by decide) (by decide) (by decide)
  have hmax : (20 : ℚ) ≤ maxSpeedMmSec := by norm_num [maxSpeedMmSec]
  rcases h20.1 (by norm_num) hmax with ⟨ha, hb, _⟩
  exact ⟨⟨by norm_num, hmax, ha, hb⟩, h0.2 (Or.inl (le_refl 0)),
    hm5.2 (Or.inl (by norm_num))⟩

/-- Claim C7: for an accepted speed `v`, `updateStepDelay` stores
`floor(1e6 / (v * stepsPerMm))` microseconds clamped up to a minimum of
100 µs — so the stored delay is never below 100 µs. -/
theorem C7_step_delay_floor_min100 (s : FeederState) (v : ℚ) (hv : 0 < v)
    (_hvmax : v ≤ maxSpeedMmSec) :
    (updateStepDelay { s with targetSpeedMmSec := v }).stepDelayUs =
        max (⌊(1000000 : ℚ) / (v * stepsPerMm)⌋).toNat 100 ∧
      100 ≤ (updateStepDelay { s with targetSpeedMmSec := v }).stepDelayUs := by
  have hspm : (0 : ℚ) < stepsPerMm := by norm_num [stepsPerMm]
  have hpos : (0 : ℚ) ≤ 1000000 / (v * stepsPerMm) := by positivity
  simp only [updateStepDelay, truncQ_eq_floor _ hpos]
  constructor
  · split <;> omega
  · split <;> omega

/-- Concrete instance of Claim C7 at `v = 20`. -/
theorem C7_step_delay_floor_min100_witness :
    (0 : ℚ) < 20 ∧ (20 : ℚ) ≤ maxSpeedMmSec ∧
      ((updateStepDelay { bootState with targetSpeedMmSec := 20 }).stepDelayUs =
          max (⌊(1000000 : ℚ) / (20 * stepsPerMm)⌋).toNat 100 ∧
        100 ≤ (updateStepDelay
            { bootState with targetSpeedMmSec := 20 }).stepDelayUs) :=
  ⟨by norm_num, by norm_num [maxSpeedMmSec],
    C7_step_delay_floor_min100 bootState 20 (by norm_num)
      (by norm_num [maxSpeedMmSec])⟩

/-- Claim C8: feeding and jogging are never active together, and every move
start clears the stop request: entering `feedDistance` forces
`jogMode = false` and `stopRequested = false`, no iteration of the feed
loop (`doStep` then the serial scan) ever changes `jogMode`, the loop state
keeps `jogMode = false` throughout any feed, and `startJog` clears
`stopRequested`. -/
theorem C8_feeding_jogging_exclusive (s s2 : FeederState) (d : Dir)
    (inp : List String) (fuel : ℕ) :
    (feedEntry s).jogMode = false ∧
      (feedEntry s).stopRequested = false ∧
      (checkSerialStop (doStep d s2) inp).1.jogMode = s2.jogMode ∧
      (feedLoop d fuel (feedEntry s) inp).2.1.jogMode = false ∧
      (startJog d s).stopRequested = false := by
  refine ⟨rfl, rfl, ?_, ?_, rfl⟩
  · rw [checkSerialStop_jogMode, doStep_eq]
  · rw [feedLoop_jogMode]
    rfl

/-- Claim C9 (implicit behavior): a feed or retract that completes `n` steps
— finished or stopped early — changes `Position` by
`dirSign * 2 * n / stepsPerMm`, twice the stepped distance (`doStep` adds
`1/stepsPerMm` per step and `feedDistance` adds `n/stepsPerMm` again after
the loop), while one jog tick changes `Position` by exactly
`dirSign / stepsPerMm`, once per step. -/
theorem C9_position_double_per_feed_single_per_jog (mm : ℚ) (d : Dir)
    (s : FeederState) (input : List String) (s2 : FeederState) :
    (feedDistance mm d s input).1.currentPositionMm =
        s.currentPositionMm +
          dirSign d * (2 * ((feedResult mm d s input).1 : ℚ)) / stepsPerMm ∧
      (jogTick
          { s2 with jogMode := true, stopRequested := false }).currentPositionMm =
        s2.currentPositionMm + dirSign s2.jogDirection / stepsPerMm := by
  refine ⟨feedDistance_pos mm d s input, ?_⟩
  simp [jogTick, doStep_eq]

/-- Claim C10: during a blocking feed, a pending line whose first byte is
`S`/`s` but which is not `STOP` is consumed whole and silently discarded
(state unchanged, and the feed emits only its own `FEEDING` and
`OK DONE`/`OK STOPPED_EARLY` lines), while a pending line not starting with
`S`/`s` survives the entire feed in the serial buffer, to be processed only
after the feed returns. -/
theorem C10_feed_serial_scan (s s0 : FeederState) (line : String)
    (rest : List String) (d : Dir) (mm : ℚ) (fuel : ℕ) :
    (lineStartsWithS line = true → normalizeCmd line ≠ ['S', 'T', 'O', 'P'] →
      checkSerialStop s (line :: rest) = (s, rest)) ∧
    (lineStartsWithS line = false →
      (feedLoop d fuel s0 (line :: rest)).2.2 = line :: rest) ∧
    (lineStartsWithS line = false →
      (feedDistance mm d s (line :: rest)).2.1 = line :: rest) ∧
    ((feedDistance mm d s (line :: rest)).2.2 =
        [Output.feeding mm, Output.okDone] ∨
      (feedDistance mm d s (line :: rest)).2.2 =
        [Output.feeding mm, Output.okStoppedEarly]) := by
  refine ⟨?_, ?_, ?_, feedDistance_outputs mm d s (line :: rest)⟩
  · intro h1 h2
    simp [checkSerialStop, h1, h2]
  · intro h
    exact feedLoop_notS d fuel s0 line rest h
  · intro h
    have hfd : (feedDistance mm d s (line :: rest)).2.1 =
        (feedResult mm d s (line :: rest)).2.2 := by
      cases d <;> simp [feedDistance]
    rw [hfd, feedResult]
    exact feedLoop_notS d _ (feedEntry s) line rest h

/-- Concrete instance of Claim C10: a pending `S20` is silently dropped by
the in-feed scan, and a pending `F5` survives a feed loop untouched. -/
theorem C10_feed_serial_scan_witness :
    checkSerialStop bootState ["S20", "F5"] = (bootState, ["F5"]) ∧
      (feedLoop Dir.forward 3 bootState ["F5"]).2.2 = ["F5"] :=
  ⟨(C10_feed_serial_scan bootState bootState "S20" ["F5"] Dir.forward 1 3).1
      (by decide) (by decide),
    (C10_feed_serial_scan bootState bootState "F5" [] Dir.forward 1 3).2.1
      (by decide)⟩

end TubeFeeder
